import Mathlib

/-!
Verification of the TerminalWhisper push-to-talk pipeline.

Shallow embedding of the repository sources:
  audio_recorder.py  -> `Recorder`, `Recorder.start`, `Recorder.stop`, `audioCallback`
  transcriber.py     -> `transcribe` (the Whisper API call is an oracle argument)
  text_injector.py   -> `TextInjector.inject`
  voice_input.py     -> `processRecording`, `onRecordStartFx`, `onSystemResume`, `onRestart`
  hotkey_manager.py  -> `hotkeyStep`, `hotkeyRun`, `Hotkey.reinitialize`

External collaborators (sounddevice stream, OpenAI client, clipboard,
pystray icon) are modelled at their call sites as oracle parameters or
emitted effect events, exactly where the Python code calls them.
-/

namespace TerminalWhisper

/-- One audio block delivered by the sounddevice callback
(`indata.copy()` in audio_recorder.py). -/
abbrev Frame := List Int

/-- The WAV buffer returned by `AudioRecorder.stop`.  The Python code returns
`io.BytesIO()` (zero bytes) when no chunks were captured, and otherwise a
buffer produced by `scipy.io.wavfile.write`: a 44-byte RIFF header followed by
the int16 mono samples (2 bytes per sample). -/
inductive Buffer where
  | empty : Buffer
  | wav (data : List Int) : Buffer
deriving Repr, DecidableEq

/-- Byte size of the buffer, the quantity `audio_buffer.getbuffer().nbytes`
tested by the orchestrator and by the transcriber. -/
def Buffer.nbytes : Buffer → Nat
  | .empty => 0
  | .wav data => 44 + 2 * data.length

/-- State of `AudioRecorder` (audio_recorder.py): the accumulated chunk list,
whether a sounddevice stream object is held, and the `_is_recording` flag. -/
structure Recorder where
  chunks : List Frame
  streamOpen : Bool
  isRecording : Bool
deriving Repr, DecidableEq

/-- `AudioRecorder.__init__`: empty chunk list, no stream, not recording. -/
def Recorder.init : Recorder := ⟨[], false, false⟩

/-- `AudioRecorder._audio_callback`: appends the incoming block to `_chunks`
if and only if `_is_recording` is set. -/
def audioCallback (r : Recorder) (indata : Frame) : Recorder :=
  if r.isRecording then { r with chunks := r.chunks ++ [indata] } else r

/-- `AudioRecorder.start`: resets `_chunks` to the empty list, sets
`_is_recording`, and opens and starts a fresh input stream. -/
def Recorder.start (_r : Recorder) : Recorder :=
  { chunks := [], streamOpen := true, isRecording := true }

/-- `AudioRecorder.stop`: clears `_is_recording`, stops and closes the stream
if one is held, and returns the WAV buffer — `io.BytesIO()` when `_chunks` is
empty, otherwise the concatenated chunks encoded by `wavfile.write`.  The
chunk list itself is not cleared by `stop` (only the next `start` clears it). -/
def Recorder.stop (r : Recorder) : Recorder × Buffer :=
  let r1 : Recorder := { r with streamOpen := false, isRecording := false }
  if r.chunks = [] then (r1, Buffer.empty)
  else (r1, Buffer.wav r.chunks.flatten)

/-- Outcome of the external OpenAI transcription call
(`client.audio.transcriptions.create`): either a response text or a raised
exception. -/
inductive ApiOutcome where
  | ok (text : String)
  | failure
deriving Repr, DecidableEq

/-- Result of `Transcriber.transcribe` together with whether the network call
was made. -/
structure TranscribeResult where
  text : String
  networkCalled : Bool
deriving Repr, DecidableEq

/-- Model of Python str.strip with no argument: drop whitespace from both
ends of the string. -/
def pyStrip (s : String) : String :=
  String.mk (((s.toList.dropWhile Char.isWhitespace).reverse.dropWhile
    Char.isWhitespace).reverse)

/-- `Transcriber.transcribe` (transcriber.py): a zero-byte buffer returns the
empty string without any network call; otherwise the API is called and
`response.text.strip()` is returned; any exception from the call is caught
and turned into the empty string (the `except Exception` branch), so the
function never raises to its caller. -/
def transcribe (buf : Buffer) (api : ApiOutcome) : TranscribeResult :=
  if buf.nbytes = 0 then ⟨"", false⟩
  else
    match api with
    | .ok t => ⟨pyStrip t, true⟩
    | .failure => ⟨"", true⟩

/-- Effects of `TextInjector.inject` on the external clipboard and keyboard. -/
inductive InjEffect where
  | clipboardCopy (t : String)
  | keyDown (k : String)
  | keyUp (k : String)
deriving Repr, DecidableEq

/-- `TextInjector.inject` (text_injector.py): a no-op on empty text, otherwise
copy to clipboard, wait, and synthesize Ctrl+V. -/
def TextInjector.inject (text : String) : List InjEffect :=
  if text = "" then []
  else
    [InjEffect.clipboardCopy text, InjEffect.keyDown "ctrl", InjEffect.keyDown "v",
     InjEffect.keyUp "v", InjEffect.keyUp "ctrl"]

/-- The three tray icon states of tray_icon.py, used by the orchestrator as
its status report to the UI sink. -/
inductive TrayState where
  | idle
  | recording
  | processing
deriving Repr, DecidableEq

/-- Observable events of one orchestrator action (voice_input.py): lock
operations on `_processing_lock`, tray state reports, and calls into the
recorder, transcriber and injector collaborators. -/
inductive Ev where
  | lockAcquire
  | lockRelease
  | setTray (s : TrayState)
  | recorderStart
  | recorderStop
  | transcribeCall
  | injectCall (t : String)
deriving Repr, DecidableEq

/-- Environment of one run of `VoiceInputApp._process_recording`: the recorder
state when the cycle body runs, the outcome of the external transcription API
call, and whether the external injection machinery (clipboard or synthetic
keystrokes) raises. -/
structure CycleEnv where
  rec0 : Recorder
  api : ApiOutcome
  injectRaises : Bool
deriving Repr, DecidableEq

/-- Result of one run of `VoiceInputApp._process_recording`: the event trace,
the recorder state afterwards, and whether an exception escaped the cycle. -/
structure CycleRun where
  events : List Ev
  recFinal : Recorder
  raised : Bool
deriving Repr, DecidableEq

/-- `VoiceInputApp._process_recording` (voice_input.py).  The body runs under
`with self._processing_lock`, whose semantics release the lock on every exit
path, normal or exceptional; hence every branch below ends in `lockRelease`.
Inside the block: report Processing, stop the recorder, and if the buffer has
bytes, transcribe it; if the (stripped) text is truthy, inject it; finally
report Idle.  The `setTray .idle` report is a plain statement inside the
block, not a `finally` clause, so it is skipped when the injection call
raises, while the lock is still released. -/
def processRecording (env : CycleEnv) : CycleRun :=
  let stopres := env.rec0.stop
  let pre : List Ev := [Ev.lockAcquire, Ev.setTray TrayState.processing, Ev.recorderStop]
  if stopres.2.nbytes > 0 then
    let t := transcribe stopres.2 env.api
    if t.text ≠ "" then
      if env.injectRaises then
        ⟨pre ++ [Ev.transcribeCall, Ev.injectCall t.text, Ev.lockRelease], stopres.1, true⟩
      else
        ⟨pre ++ [Ev.transcribeCall, Ev.injectCall t.text,
                 Ev.setTray TrayState.idle, Ev.lockRelease], stopres.1, false⟩
    else
      ⟨pre ++ [Ev.transcribeCall, Ev.setTray TrayState.idle, Ev.lockRelease], stopres.1, false⟩
  else
    ⟨pre ++ [Ev.setTray TrayState.idle, Ev.lockRelease], stopres.1, false⟩

/-- The two logical signals the hotkey detector emits to the orchestrator:
engaged corresponds to the `on_press` callback, disengaged to `on_release`. -/
inductive Signal where
  | engaged
  | disengaged
deriving Repr, DecidableEq

/-- Key events observed by `HotkeyManager` (hotkey_manager.py): a WM_HOTKEY
message for the registered combo delivered to the message loop, and the
release poll observing that the Ctrl key is no longer down
(`GetAsyncKeyState` high bit clear). -/
inductive KeyEv where
  | hotkeyMsg
  | ctrlUp
deriving Repr, DecidableEq

/-- One step of the detector over its `_hotkey_active` flag.
`_on_hotkey_detected` returns at once when `_hotkey_active` is already set,
otherwise sets it and fires `on_press`.  The tail of `_poll_release` fires
`on_release` and clears the flag only when `_hotkey_active` is still set. -/
def hotkeyStep (active : Bool) : KeyEv → Bool × List Signal
  | KeyEv.hotkeyMsg => if active then (active, []) else (true, [Signal.engaged])
  | KeyEv.ctrlUp => if active then (false, [Signal.disengaged]) else (active, [])

/-- Signals emitted over a whole sequence of key events, folding
`hotkeyStep` from the given `_hotkey_active` value. -/
def hotkeyRun (active : Bool) : List KeyEv → List Signal
  | [] => []
  | e :: es =>
    let r := hotkeyStep active e
    r.2 ++ hotkeyRun r.1 es

/-- Alternation check for an emitted signal list: from a given engaged-state,
the next signal must be `engaged` when currently disengaged and `disengaged`
when currently engaged. -/
def altOk : Bool → List Signal → Bool
  | _, [] => true
  | false, Signal.engaged :: rest => altOk true rest
  | true, Signal.disengaged :: rest => altOk false rest
  | _, _ => false

/-- State of `HotkeyManager` relevant to reinitialisation: the
`_hotkey_active` flag, the `_running` flag and the `_registered` flag. -/
structure Hotkey where
  hotkeyActive : Bool
  running : Bool
  registered : Bool
deriving Repr, DecidableEq

/-- Win32 registration effects of `HotkeyManager.reinitialize`. -/
inductive HkEffect where
  | unregisterHotkey
  | registerAttempt
deriving Repr, DecidableEq

/-- `HotkeyManager.reinitialize` (hotkey_manager.py): clears `_hotkey_active`,
stops the message loop (whose exit path calls `UnregisterHotKey` when a
registration is held), then restarts the loop, whose first action is
`RegisterHotKey`; `regOk` is the outcome of that Win32 call.  Nothing else of
the application is touched. -/
def Hotkey.reinitialize (h : Hotkey) (regOk : Bool) : Hotkey × List HkEffect :=
  (⟨false, true, regOk⟩,
   (if h.registered then [HkEffect.unregisterHotkey] else []) ++ [HkEffect.registerAttempt])

/-- Combined application state for the orchestrator-level claims: the tray
state last reported, the recorder, the hotkey manager state, and whether a
processing cycle currently holds `_processing_lock`. -/
structure AppSt where
  tray : TrayState
  recSt : Recorder
  hot : Hotkey
  lockHeld : Bool
deriving Repr, DecidableEq

/-- `VoiceInputApp._on_record_start` (voice_input.py), the `on_press`
callback: unconditionally reports Recording to the tray and starts the
recorder; no field of the state other than the tray and the recorder is read
or written. -/
def onRecordStartFx (s : AppSt) : AppSt × List Ev :=
  ({ s with tray := TrayState.recording, recSt := s.recSt.start },
   [Ev.setTray TrayState.recording, Ev.recorderStart])

/-- Effects emitted by the remaining `VoiceInputApp` callbacks. -/
inductive AppEffect where
  | setStatusText (s : String)
  | hotkeyReinit
  | trayReport (t : TrayState)
  | lockTouched
deriving Repr, DecidableEq

/-- `VoiceInputApp._on_system_resume` (voice_input.py), the ResumeWatcher
callback: logs and sets the tray status text, nothing else. -/
def onSystemResume : List AppEffect :=
  [AppEffect.setStatusText "Resumed from sleep"]

/-- `VoiceInputApp._on_restart` (voice_input.py), the tray-menu callback:
calls `HotkeyManager.reinitialize`, nothing else. -/
def onRestart : List AppEffect :=
  [AppEffect.hotkeyReinit]

/-- `VoiceInputApp._on_restart` applied to the application state: only the
hotkey manager component changes. -/
def appRestart (s : AppSt) (regOk : Bool) : AppSt × List HkEffect :=
  let r := s.hot.reinitialize regOk
  ({ s with hot := r.1 }, r.2)

/-- Operations applied to an `AudioRecorder` over its lifetime: a `start`
call, a device callback delivering one block, and a `stop` call. -/
inductive RecOp where
  | start
  | frame (data : Frame)
  | stop
deriving Repr, DecidableEq

/-- State transition of one recorder operation (the buffer a `stop` returns
is read off separately via `Recorder.stop`). -/
def recStep (r : Recorder) : RecOp → Recorder
  | RecOp.start => r.start
  | RecOp.frame d => audioCallback r d
  | RecOp.stop => (r.stop).1

/-- Recorder state after a list of operations. -/
def recRun (r : Recorder) : List RecOp → Recorder
  | [] => r
  | op :: ops => recRun (recStep r op) ops

/-- Identifiers for the two worker threads spawned by two successive
`on_release` callbacks (`VoiceInputApp._on_record_stop` starts a fresh
`threading.Thread` per release): thread `a` was spawned first, `b` second. -/
inductive Tid where
  | a
  | b
deriving Repr, DecidableEq, Fintype

/-- Interleaving core of two `_process_recording` workers contending for
`_processing_lock`.  Program counters: 0 = before `acquire`, 1 = holding the
lock, body not yet begun, 2 = body begun, 3 = body ended, still holding,
4 = lock released, done.  A Python `threading.Lock` blocks `acquire` while
held and makes no fairness or FIFO promise, so the scheduler below may pick
either thread at every step. -/
structure Core where
  lock : Bool
  pcA : Fin 5
  pcB : Fin 5
deriving Repr, DecidableEq, Fintype

/-- Both workers before their `acquire`, lock free. -/
def core0 : Core := ⟨false, 0, 0⟩

/-- One micro-step of the chosen thread: `acquire` succeeds only when the
lock is free (otherwise the thread stays blocked), the body runs in two
observable halves, and `release` frees the lock. -/
def coreStep (c : Core) : Tid → Core
  | Tid.a =>
    if c.pcA = 0 then (if c.lock then c else { c with pcA := 1, lock := true })
    else if c.pcA = 1 then { c with pcA := 2 }
    else if c.pcA = 2 then { c with pcA := 3 }
    else if c.pcA = 3 then { c with pcA := 4, lock := false }
    else c
  | Tid.b =>
    if c.pcB = 0 then (if c.lock then c else { c with pcB := 1, lock := true })
    else if c.pcB = 1 then { c with pcB := 2 }
    else if c.pcB = 2 then { c with pcB := 3 }
    else if c.pcB = 3 then { c with pcB := 4, lock := false }
    else c

/-- Body events a micro-step makes observable: `(t, true)` when the body of
thread `t` begins, `(t, false)` when it ends. -/
def emits (c : Core) (t : Tid) : List (Tid × Bool) :=
  let pc := match t with | Tid.a => c.pcA | Tid.b => c.pcB
  if pc = 1 then [(t, true)] else if pc = 2 then [(t, false)] else []

/-- The body-event trace produced by running a schedule (the list of thread
choices made by the OS scheduler). -/
def schedRun (c : Core) (tr : List (Tid × Bool)) : List Tid → List (Tid × Bool)
  | [] => tr
  | t :: ts => schedRun (coreStep c t) (tr ++ emits c t) ts

/-- Whether a thread is inside the lock-protected region (between a
successful `acquire` and the `release`). -/
def holding (pc : Fin 5) : Bool := pc == 1 || pc == 2 || pc == 3

/-- Mutual-exclusion invariant of the lock: the lock is held exactly when
some thread is inside the protected region, and never are both inside. -/
def coreInv (c : Core) : Bool :=
  (c.lock == (holding c.pcA || holding c.pcB)) && !(holding c.pcA && holding c.pcB)

/-- Checks that at every state along a schedule the two workers are never
simultaneously inside the lock-protected region. -/
def mutexAlways (c : Core) : List Tid → Bool
  | [] => !(holding c.pcA && holding c.pcB)
  | t :: ts => (!(holding c.pcA && holding c.pcB)) && mutexAlways (coreStep c t) ts

/-- FIFO-order predicate of the claim on a body-event trace: the body of the
second-spawned thread `b` may begin only after the first-spawned thread `a`
has finished its body. -/
def fifoOrderedFrom (aDone : Bool) : List (Tid × Bool) → Bool
  | [] => true
  | (Tid.b, true) :: rest => aDone && fifoOrderedFrom aDone rest
  | (Tid.a, false) :: rest => fifoOrderedFrom true rest
  | _ :: rest => fifoOrderedFrom aDone rest

/-- FIFO order over a whole trace, starting with the first cycle unfinished. -/
def fifoOrdered (tr : List (Tid × Bool)) : Bool := fifoOrderedFrom false tr

/-! Helper lemmas. -/

/-- Alternation of the emitted signals holds from any engaged-state. -/
theorem altOk_hotkeyRun (evs : List KeyEv) :
    ∀ a : Bool, altOk a (hotkeyRun a evs) = true := by
  induction evs with
  | nil => intro a; cases a <;> rfl
  | cons e es ih =>
    intro a
    cases e <;> cases a <;> simp [hotkeyRun, hotkeyStep, altOk, ih]

/-- The lock invariant is preserved by every micro-step of either thread. -/
theorem coreInv_step :
    ∀ (c : Core) (t : Tid), coreInv c = true → coreInv (coreStep c t) = true := by
  decide

/-- Under the lock invariant the two workers are not both inside the
protected region. -/
theorem coreInv_notBoth :
    ∀ c : Core, coreInv c = true → (!(holding c.pcA && holding c.pcB)) = true := by
  decide

/-- Mutual exclusion holds along every schedule from any state satisfying
the lock invariant. -/
theorem mutexAlways_of_inv (sched : List Tid) :
    ∀ c : Core, coreInv c = true → mutexAlways c sched = true := by
  induction sched with
  | nil => exact coreInv_notBoth
  | cons t ts ih =>
    intro c hc
    simp only [mutexAlways, Bool.and_eq_true]
    exact ⟨coreInv_notBoth c hc, ih _ (coreInv_step c t hc)⟩

/-- Running only device callbacks on a recording recorder appends exactly the
delivered blocks to the chunk list. -/
theorem recRun_frames (ds : List Frame) :
    ∀ r : Recorder, r.isRecording = true →
      recRun r (ds.map RecOp.frame) = { r with chunks := r.chunks ++ ds } := by
  induction ds with
  | nil => intro r _; simp [recRun]
  | cons d rest ih =>
    intro r hr
    simp only [List.map_cons, recRun, recStep, audioCallback, hr, if_true]
    rw [ih ⟨r.chunks ++ [d], r.streamOpen, true⟩ rfl]
    simp [List.append_assoc]

/-! Claim theorems. -/

/-- C1, counterexample: with a non-empty capture, a transcription result
"hi" and an injection call that raises, the cycle releases the lock (the
`with` statement guarantees that) but never reports Idle to the tray, so the
claim that the state transitions to Idle whatever the outcome is false. -/
theorem C1_counterexample :
    (processRecording ⟨⟨[[1]], true, true⟩, ApiOutcome.ok "hi", true⟩).raised = true ∧
      Ev.lockRelease ∈
        (processRecording ⟨⟨[[1]], true, true⟩, ApiOutcome.ok "hi", true⟩).events ∧
      Ev.setTray TrayState.idle ∉
        (processRecording ⟨⟨[[1]], true, true⟩, ApiOutcome.ok "hi", true⟩).events := by
  decide

/-- C1, amended: in every processing cycle the `_processing_lock` is released
unconditionally, and the Idle report to the StatusSink happens exactly when
no exception escapes the cycle body (transcription never raises, so only a
raising injection or other collaborator can skip the Idle report). -/
theorem C1_token_release (env : CycleEnv) :
    Ev.lockRelease ∈ (processRecording env).events ∧
      (Ev.setTray TrayState.idle ∈ (processRecording env).events ↔
        (processRecording env).raised = false) := by
  unfold processRecording
  by_cases h1 : 0 < env.rec0.stop.2.nbytes <;>
    by_cases h2 : (transcribe env.rec0.stop.2 env.api).text = "" <;>
    by_cases h3 : env.injectRaises = true <;>
    simp [h1, h2, h3]

/-- C2: over every sequence of key events delivered to the detector, the
emitted signals strictly alternate starting from `engaged`: never two
`engaged` without an intervening `disengaged` and vice versa, so `engaged`
fires at most once per physical hold. -/
theorem C2_signals_alternate (evs : List KeyEv) :
    altOk false (hotkeyRun false evs) = true :=
  altOk_hotkeyRun evs false

/-- C3, counterexample: FIFO order is not guaranteed.  The schedule that runs
the second-spawned worker `b` to completion before the first-spawned worker
`a` takes a step is a legal interleaving (a Python `threading.Lock` makes no
fairness promise and thread start order does not fix scheduling order), and
its trace runs the body of `b` before `a` has completed. -/
theorem C3_counterexample :
    ¬ ∀ sched : List Tid, fifoOrdered (schedRun core0 [] sched) = true := fun h =>
  absurd (h [Tid.b, Tid.b, Tid.b, Tid.b, Tid.a, Tid.a, Tid.a, Tid.a]) (by decide)

/-- C3, amended: two processing cycles spawned by successive release events
never run concurrently — along every schedule the two workers are never
simultaneously inside the region protected by `_processing_lock` — but their
order is arbitrary. -/
theorem C3_mutual_exclusion (sched : List Tid) : mutexAlways core0 sched = true :=
  mutexAlways_of_inv sched core0 (by decide)

/-- C4, counterexample: in a state where a processing cycle holds the lock,
an `on_press` callback still starts the recorder, refuting the claim that no
new capture session is started while Processing. -/
theorem C4_counterexample :
    (⟨TrayState.processing, Recorder.init, ⟨false, true, true⟩, true⟩ : AppSt).lockHeld
        = true ∧
      Ev.recorderStart ∈
        (onRecordStartFx
          ⟨TrayState.processing, Recorder.init, ⟨false, true, true⟩, true⟩).2 := by
  decide

/-- C4, amended: `_on_record_start` is unconditional — an Engaged delivered
while the ProcessingToken is held does start a new capture session (tray set
to Recording, `AudioRecorder.start` invoked); only an Engaged during the same
physical hold is suppressed, by the detector via `_hotkey_active`. -/
theorem C4_engaged_during_processing (s : AppSt) (_h : s.lockHeld = true) :
    Ev.recorderStart ∈ (onRecordStartFx s).2 ∧
      (onRecordStartFx s).1.recSt.isRecording = true ∧
      hotkeyStep true KeyEv.hotkeyMsg = (true, []) := by
  simp [onRecordStartFx, Recorder.start, hotkeyStep]

/-- C4, witness: the amended theorem applied at a concrete Processing
state. -/
theorem C4_witness :
    (⟨TrayState.processing, Recorder.init, ⟨false, true, false⟩, true⟩ : AppSt).lockHeld
        = true ∧
      (Ev.recorderStart ∈
          (onRecordStartFx
            ⟨TrayState.processing, Recorder.init, ⟨false, true, false⟩, true⟩).2 ∧
        (onRecordStartFx
            ⟨TrayState.processing, Recorder.init, ⟨false, true, false⟩, true⟩).1.recSt.isRecording
            = true ∧
        hotkeyStep true KeyEv.hotkeyMsg = (true, [])) :=
  ⟨by decide,
    C4_engaged_during_processing
      ⟨TrayState.processing, Recorder.init, ⟨false, true, false⟩, true⟩ (by decide)⟩

/-- C5, counterexample: the resume callback does not call
`HotkeyManager.reinitialize`, refuting the claim that every ResumeDetected
signal triggers hotkey re-registration. -/
theorem C5_counterexample : AppEffect.hotkeyReinit ∉ onSystemResume := by decide

/-- C5, amended: the resume handler only updates the status text — it touches
neither the hotkey registration nor the tray recording state nor the
processing lock — while re-registration is performed only by the manual
tray-menu restart handler. -/
theorem C5_resume_effects :
    onSystemResume = [AppEffect.setStatusText "Resumed from sleep"] ∧
      onRestart = [AppEffect.hotkeyReinit] :=
  ⟨rfl, rfl⟩

/-- C6: in every processing cycle the transcription collaborator is called
exactly when the captured buffer has bytes, and the injection collaborator is
called exactly when moreover the stripped transcription text is non-empty. -/
theorem C6_collaborator_calls (env : CycleEnv) :
    (Ev.transcribeCall ∈ (processRecording env).events ↔
        0 < ((env.rec0.stop).2).nbytes) ∧
      ((∃ t, Ev.injectCall t ∈ (processRecording env).events) ↔
        (0 < ((env.rec0.stop).2).nbytes ∧
          (transcribe (env.rec0.stop).2 env.api).text ≠ "")) := by
  unfold processRecording
  by_cases h1 : 0 < env.rec0.stop.2.nbytes <;>
    by_cases h2 : (transcribe env.rec0.stop.2 env.api).text = "" <;>
    by_cases h3 : env.injectRaises = true <;>
    simp [h1, h2, h3]

/-- C7: `Transcriber.transcribe` is total over all API outcomes (the embedded
`except` branch turns every API failure into the empty string, never a raised
exception), a zero-byte buffer short-circuits to the empty string with no
network call, and an API failure yields the empty string. -/
theorem C7_transcribe_never_raises (buf : Buffer) (api : ApiOutcome) :
    (buf.nbytes = 0 → transcribe buf api = ⟨"", false⟩) ∧
      (transcribe buf ApiOutcome.failure).text = "" := by
  constructor
  · intro h
    simp [transcribe, h]
  · cases buf <;> simp [transcribe, Buffer.nbytes]

/-- C7, witness: the theorem applied at the empty buffer and at a one-sample
buffer with a failing API call. -/
theorem C7_witness :
    transcribe Buffer.empty ApiOutcome.failure = ⟨"", false⟩ ∧
      (transcribe (Buffer.wav [1]) ApiOutcome.failure).text = "" :=
  ⟨(C7_transcribe_never_raises Buffer.empty ApiOutcome.failure).1 rfl,
    (C7_transcribe_never_raises (Buffer.wav [1]) ApiOutcome.failure).2⟩

/-- C8: `AudioRecorder.stop` on the freshly constructed recorder (no prior
`start`) returns the zero-byte buffer, and a processing cycle over that
recorder never calls the transcription collaborator. -/
theorem C8_stop_without_begin :
    ((Recorder.init.stop).2 = Buffer.empty) ∧
      ∀ (api : ApiOutcome) (ir : Bool),
        Ev.transcribeCall ∉ (processRecording ⟨Recorder.init, api, ir⟩).events := by
  constructor
  · rfl
  · intro api ir
    simp [processRecording, Recorder.stop, Recorder.init, Buffer.nbytes]

/-- C9: `reinitialize` invoked while a recording is in progress resets the
engaged flag to disengaged after unregistering and re-registering the hook,
and leaves the recorder — stream, flag and accumulated chunks — completely
unchanged. -/
theorem C9_reinitialize_frame (s : AppSt) (regOk : Bool)
    (_h : s.recSt.isRecording = true) :
    (appRestart s regOk).1.recSt = s.recSt ∧
      (appRestart s regOk).1.hot.hotkeyActive = false ∧
      HkEffect.registerAttempt ∈ (appRestart s regOk).2 ∧
      (s.hot.registered = true → HkEffect.unregisterHotkey ∈ (appRestart s regOk).2) := by
  refine ⟨rfl, rfl, ?_, ?_⟩
  · cases hreg : s.hot.registered <;> simp [appRestart, Hotkey.reinitialize, hreg]
  · intro hreg
    simp [appRestart, Hotkey.reinitialize, hreg]

/-- C9, witness: the theorem applied at a concrete mid-recording state. -/
theorem C9_witness :
    ((⟨TrayState.recording, ⟨[[1]], true, true⟩, ⟨true, true, true⟩, false⟩ : AppSt).recSt.isRecording
        = true) ∧
      ((appRestart ⟨TrayState.recording, ⟨[[1]], true, true⟩, ⟨true, true, true⟩, false⟩ true).1.recSt
          = (⟨TrayState.recording, ⟨[[1]], true, true⟩, ⟨true, true, true⟩, false⟩ : AppSt).recSt ∧
        (appRestart ⟨TrayState.recording, ⟨[[1]], true, true⟩, ⟨true, true, true⟩, false⟩ true).1.hot.hotkeyActive
          = false ∧
        HkEffect.registerAttempt ∈
          (appRestart ⟨TrayState.recording, ⟨[[1]], true, true⟩, ⟨true, true, true⟩, false⟩ true).2 ∧
        ((⟨TrayState.recording, ⟨[[1]], true, true⟩, ⟨true, true, true⟩, false⟩ : AppSt).hot.registered
            = true →
          HkEffect.unregisterHotkey ∈
            (appRestart ⟨TrayState.recording, ⟨[[1]], true, true⟩, ⟨true, true, true⟩, false⟩ true).2)) :=
  ⟨by decide,
    C9_reinitialize_frame
      ⟨TrayState.recording, ⟨[[1]], true, true⟩, ⟨true, true, true⟩, false⟩ true (by decide)⟩

/-- C10: starting the recorder resets the chunk list, so whatever was
accumulated before, the buffer returned by the next `stop` is exactly the WAV
of the blocks delivered since that `start` — frames never leak between
capture sessions. -/
theorem C10_no_frame_leak (r : Recorder) (ds : List Frame) :
    ((recRun (Recorder.start r) (ds.map RecOp.frame)).stop).2 =
      if ds = [] then Buffer.empty else Buffer.wav ds.flatten := by
  rw [recRun_frames ds (Recorder.start r) rfl]
  by_cases h : ds = [] <;> simp [Recorder.start, Recorder.stop, h]

end TerminalWhisper
